import Mathlib

/-!
# Verification of the `uuid` package (github.com/4xoc/uuid)

Shallow embedding of `uuid.go` into Lean 4.

Modelling conventions:
* Go bytes are `Nat` values; byte arrays and slices are `List Nat` (with
  `< 256` and length facts carried as hypotheses where they matter).
* The package-global registry `setScopes : map[string]*byte` is modelled as
  explicit state of type `Registry := Option (List (String × Nat))`: `none`
  is the nil (unconfigured) map, and the association list has Go-map
  insert-replaces-key semantics (`mapInsert`).  The Go map stores pointers
  into the immutable `scopes` array; since that array is never mutated,
  storing the pointee byte value is equivalent.
* Functions that can panic (`Scan` slicing, `ScopeMatches` nil dereference)
  return `Option`, with `none` marking the panic.
* `crand.Read` and `mrand.Intn 4` are modelled by passing the random bytes
  `rand` and the 2-bit jitter `r2` as explicit parameters.
-/

/-- Hex digit character used by Go `fmt %x` formatting: `0`-`9` then `a`-`f`. -/
def hexDigit (n : Nat) : Char :=
  if n < 10 then Char.ofNat (48 + n) else Char.ofNat (87 + n)

/-- Go `%x` of one byte: two lowercase hex digits. -/
def byteHex (b : Nat) : List Char :=
  [hexDigit (b / 16), hexDigit (b % 16)]

/-- Go `%x` of a byte slice: each byte as two lowercase hex digits. -/
def bytesHex (bs : List Nat) : List Char :=
  (bs.map byteHex).flatten

/-- The character class `[0-9a-f]` of the validation regexp in `Read`. -/
def isHexDigitLower (c : Char) : Bool :=
  (48 ≤ c.toNat && c.toNat ≤ 57) || (97 ≤ c.toNat && c.toNat ≤ 102)

/-- One hex character as decoded by Go `encoding/hex` (`0-9`, `a-f`, `A-F`). -/
def hexVal (c : Char) : Option Nat :=
  if 48 ≤ c.toNat ∧ c.toNat ≤ 57 then some (c.toNat - 48)
  else if 97 ≤ c.toNat ∧ c.toNat ≤ 102 then some (c.toNat - 87)
  else if 65 ≤ c.toNat ∧ c.toNat ≤ 70 then some (c.toNat - 55)
  else none

/-- Go `hex.DecodeString`: pairs of hex characters to bytes; fails on an odd
length or a character outside the hex alphabet. -/
def decodeHexPairs : List Char → Option (List Nat)
  | [] => some []
  | [_] => none
  | c1 :: c2 :: rest =>
    match hexVal c1, hexVal c2 with
    | some a, some b => (decodeHexPairs rest).map (fun t => (16 * a + b) :: t)
    | _, _ => none

/-- Go `strings.Replace(s, "-", "", -1)`: drop every hyphen. -/
def removeHyphens (cs : List Char) : List Char :=
  cs.filter (fun c => c != '-')

/-- Consume exactly `n` characters of the class `[0-9a-f]`, returning the
rest of the input; `none` when the input is shorter or a character does not
match.  Building block for the anchored regexp of `Read`. -/
def hexRun : Nat → List Char → Option (List Char)
  | 0, cs => some cs
  | _ + 1, [] => none
  | n + 1, c :: cs => if isHexDigitLower c then hexRun n cs else none

/-- Consume one mandatory hyphen from the rest of a partial match. -/
def expectHyphen : Option (List Char) → Option (List Char)
  | some (c :: cs) => if c = '-' then some cs else none
  | _ => none

/-- The anchored regexp
`^[0-9a-f]{8}-[0-9a-f]{4}-[0-9a-f]{4}-[0-9a-f]{4}-[0-9a-f]{12}$`
checked by `Read`, written as a structural matcher: eight hex digits, a
hyphen, three hyphen-separated groups of four hex digits, a hyphen, twelve
hex digits, and then the end of the string. -/
def isCanonical (cs : List Char) : Bool :=
  ((((expectHyphen (hexRun 8 cs)).bind
      (fun t => expectHyphen (hexRun 4 t))).bind
      (fun t => expectHyphen (hexRun 4 t))).bind
      (fun t => expectHyphen (hexRun 4 t))).bind
      (fun t => hexRun 12 t) == some ([] : List Char)

/-- The struct `UUID` of `uuid.go`. -/
structure UUID where
  scope : String
  hex : String
  bin : List Nat
  deriving DecidableEq

/-- Error string constants of `uuid.go`. -/
def ErrorMissingScope : String := "The provided scope is not known."

def ErrorBadScope : String := "The provided scope is not supported."

def ErrorBadString : String := "The provided string is not a UUID."

def ErrorScopesAlreadySet : String := "Scopes can only be set once."

/-- The `[64]byte` table `scopes` of `uuid.go`: 0x00, 0x04, …, 0xfc. -/
def scopes : List Nat :=
  [0x00, 0x04, 0x08, 0x0c,
   0x10, 0x14, 0x18, 0x1c,
   0x20, 0x24, 0x28, 0x2c,
   0x30, 0x34, 0x38, 0x3c,
   0x40, 0x44, 0x48, 0x4c,
   0x50, 0x54, 0x58, 0x5c,
   0x60, 0x64, 0x68, 0x6c,
   0x70, 0x74, 0x78, 0x7c,
   0x80, 0x84, 0x88, 0x8c,
   0x90, 0x94, 0x98, 0x9c,
   0xa0, 0xa4, 0xa8, 0xac,
   0xb0, 0xb4, 0xb8, 0xbc,
   0xc0, 0xc4, 0xc8, 0xcc,
   0xd0, 0xd4, 0xd8, 0xdc,
   0xe0, 0xe4, 0xe8, 0xec,
   0xf0, 0xf4, 0xf8, 0xfc]

/-- The global `setScopes` map: `none` is Go's nil map (unconfigured). -/
def Registry : Type := Option (List (String × Nat))

/-- Go map assignment `m[k] = v`: replaces the binding of `k` in place, or
appends a new binding. -/
def mapInsert : List (String × Nat) → String → Nat → List (String × Nat)
  | [], k, v => [(k, v)]
  | (k', v') :: rest, k, v =>
    if k' = k then (k, v) :: rest else (k', v') :: mapInsert rest k v

/-- Go map read `m[k]` (`nil` pointer value modelled as `none`). -/
def mapLookup : List (String × Nat) → String → Option Nat
  | [], _ => none
  | (k', v') :: rest, k => if k' = k then some v' else mapLookup rest k

/-- Registry read: a Go read on a nil map yields the zero value. -/
def regLookup (st : Registry) (k : String) : Option Nat :=
  match st with
  | none => none
  | some m => mapLookup m k

/-- The loop body of `SetScopes`: `tmpMap[newScopes[index]] = &scopes[index]`
for `index` in `0..63` (pairs supplied by `newScopes.zip scopes`). -/
def buildScopes (newScopes : List String) : List (String × Nat) :=
  (newScopes.zip scopes).foldl (fun m p => mapInsert m p.1 p.2) []

/-- `SetScopes` of `uuid.go`, with the global state passed explicitly:
returns the new state and the error value. -/
def SetScopes (st : Registry) (newScopes : List String) : Registry × Option String :=
  match st with
  | some m => (some m, some ErrorScopesAlreadySet)
  | none => (some (buildScopes newScopes), none)

/-- Go `copy(dst, src)`: overwrite the first `min |dst| |src|` entries of
`dst` with those of `src`. -/
def copyBytes (dst src : List Nat) : List Nat :=
  src.take (min dst.length src.length) ++ dst.drop (min dst.length src.length)

/-- `fmt.Sprintf("%x-%x-%x-%x-%x", a, b, c, d, e)` on five byte slices. -/
def hexJoin (a b c d e : List Nat) : List Char :=
  bytesHex a ++ '-' :: bytesHex b ++ '-' :: bytesHex c ++ '-' :: bytesHex d ++ '-' :: bytesHex e

/-- The canonical formatting used by `New` and `Scan`:
`%x-%x-%x-%x-%x` of `bin[0:4], bin[4:6], bin[6:8], bin[8:10], bin[10:16]`. -/
def formatHex (bin : List Nat) : String :=
  String.mk (hexJoin (bin.take 4) ((bin.drop 4).take 2) ((bin.drop 6).take 2)
    ((bin.drop 8).take 2) ((bin.drop 10).take 6))

/-- `readScope` of `uuid.go`: decode `u.hex` into `u.bin`, mask the low two
bits of byte 0 (`bin[0] &^ 0x03`, i.e. AND `0xFC` on a byte), resolve the
scope in the registry, and report the error value.  The Go `for … range`
over the map visits keys in unspecified order and breaks at the first tag
match; because distinct names are always bound to distinct tags this is
order-independent, and it is modelled by `List.find?`. -/
def readScope (st : Registry) (u : UUID) : UUID × Option String :=
  match decodeHexPairs (removeHyphens u.hex.data) with
  | none => (u, some ErrorBadString)
  | some tmpBytes =>
    let u1 : UUID := { u with bin := copyBytes u.bin tmpBytes }
    let tmpByte := u1.bin.headD 0 &&& 0xFC
    match st with
    | none => (u1, some ErrorMissingScope)
    | some m =>
      let u2 : UUID :=
        match m.find? (fun p => tmpByte == p.2) with
        | some p => { u1 with scope := p.1 }
        | none => u1
      if u2.scope = "" then (u2, some ErrorBadScope) else (u2, none)

/-- `New` of `uuid.go`: fail with `ErrorMissingScope` when the scope is not
registered (a nil registry reads as `none`); otherwise fill `bin` with the
16 random bytes `rand`, overwrite `bin[0]` with `tag | r2`
(`r2 = mrand.Intn 4`), and format the canonical hex string. -/
def New (st : Registry) (scope : String) (rand : List Nat) (r2 : Nat) : Except String UUID :=
  match regLookup st scope with
  | none => Except.error ErrorMissingScope
  | some tag =>
    let bin := (tag ||| r2) :: rand.drop 1
    Except.ok { scope := scope, hex := formatHex bin, bin := bin }

/-- `Read` of `uuid.go`: reject input that fails the canonical regexp with
`ErrorBadString`; otherwise run `readScope` on a fresh zero `UUID` whose
`hex` is the input.  Note: any `readScope` failure is reported as
`ErrorBadScope` (uuid.go line 235 discards the inner error). -/
def Read (st : Registry) (input : String) : Except String UUID :=
  if isCanonical input.data then
    match readScope st { scope := "", hex := input, bin := List.replicate 16 0 } with
    | (u, none) => Except.ok u
    | (_, some _) => Except.error ErrorBadScope
  else
    Except.error ErrorBadString

/-- Go slice expression `l[lo:hi]` on a slice with `len = cap`: panics
(`none`) unless `lo ≤ hi ≤ len`. -/
def goSlice (l : List Nat) (lo hi : Nat) : Option (List Nat) :=
  if lo ≤ hi ∧ hi ≤ l.length then some ((l.drop lo).take (hi - lo)) else none

/-- `Scan` of `uuid.go` on a `[]byte` argument: format
`src[0:4], src[4:6], src[6:8], src[8:10], src[10:16]` as the hex string and
run `readScope`.  A panicking slice expression is `none`; a normal return
carries the updated struct and `readScope`'s error value. -/
def Scan (st : Registry) (u : UUID) (src : List Nat) : Option (UUID × Option String) :=
  (goSlice src 0 4).bind fun a =>
  (goSlice src 4 6).bind fun b =>
  (goSlice src 6 8).bind fun c =>
  (goSlice src 8 10).bind fun d =>
  (goSlice src 10 16).bind fun e =>
  some (readScope st { u with hex := String.mk (hexJoin a b c d e) })

/-- `Scope()` accessor: nil receiver (`none`) returns the empty string. -/
def Scope : Option UUID → String
  | none => ""
  | some u => u.scope

/-- `Hex()` accessor: nil receiver returns the empty string. -/
def Hex : Option UUID → String
  | none => ""
  | some u => u.hex

/-- `Bin()` accessor: nil receiver returns the zero 16-byte array
(`panicHealer`). -/
def Bin : Option UUID → List Nat
  | none => List.replicate 16 0
  | some u => u.bin

/-- The loop of `ScopeMatches`: each iteration dereferences `uuid.scope`,
so a nil receiver (`none`) panics as soon as the candidate list is
nonempty; modelled by the `none` result. -/
def scopeMatchesLoop (u : Option UUID) : List String → Option Bool
  | [] => some false
  | s :: rest =>
    match u with
    | none => none
    | some uu => if uu.scope == s then some true else scopeMatchesLoop u rest

/-- `ScopeMatches` of `uuid.go`. -/
def ScopeMatches (u : Option UUID) (candidates : List String) : Option Bool :=
  scopeMatchesLoop u candidates

/-- The partially-populated configuration array of the package's test
(`TestMain`): eight names, the remaining 56 slots left as `""`. -/
def A0 : List String :=
  ["one", "two", "three", "four", "five", "six", "seven", "eight"] ++ List.replicate 56 ""

/-- A configuration array of 64 distinct names (the characters with codes
48..111). -/
def names64 : List String :=
  (List.range 64).map (fun i => String.mk [Char.ofNat (48 + i)])

/-- A zero-value `UUID` struct. -/
def u0 : UUID := { scope := "", hex := "", bin := List.replicate 16 0 }

deriving instance DecidableEq for Except

/-! ## Facts about the hex formatting and decoding helpers -/

theorem hexDigit_facts : ∀ n < 16, hexVal (hexDigit n) = some n ∧
    isHexDigitLower (hexDigit n) = true ∧ (hexDigit n == '-') = false := by decide

theorem bytesHex_cons (b : Nat) (t : List Nat) :
    bytesHex (b :: t) = hexDigit (b / 16) :: hexDigit (b % 16) :: bytesHex t := rfl

theorem bytesHex_nil : bytesHex [] = [] := rfl

theorem bytesHex_append (l1 l2 : List Nat) :
    bytesHex (l1 ++ l2) = bytesHex l1 ++ bytesHex l2 := by
  simp [bytesHex]

theorem bytesHex_length (l : List Nat) : (bytesHex l).length = 2 * l.length := by
  induction l with
  | nil => rfl
  | cons b t ih => rw [bytesHex_cons] ; simp [ih] ; omega

theorem div16_lt (b : Nat) (h : b < 256) : b / 16 < 16 := by omega

theorem bytesHex_all_hex (l : List Nat) (h : ∀ b ∈ l, b < 256) :
    (bytesHex l).all isHexDigitLower = true := by
  induction l with
  | nil => rfl
  | cons b t ih =>
    have hb := h b (List.mem_cons_self b t)
    have h1 := (hexDigit_facts (b / 16) (div16_lt b hb)).2.1
    have h2 := (hexDigit_facts (b % 16) (Nat.mod_lt b (by omega))).2.1
    rw [bytesHex_cons]
    simp only [List.all_cons, h1, h2, Bool.true_and]
    exact ih (fun x hx => h x (List.mem_cons_of_mem b hx))

theorem bytesHex_no_hyphen (l : List Nat) (h : ∀ b ∈ l, b < 256) :
    removeHyphens (bytesHex l) = bytesHex l := by
  induction l with
  | nil => rfl
  | cons b t ih =>
    have hb := h b (List.mem_cons_self b t)
    have h1 := (hexDigit_facts (b / 16) (div16_lt b hb)).2.2
    have h2 := (hexDigit_facts (b % 16) (Nat.mod_lt b (by omega))).2.2
    have ih' := ih (fun x hx => h x (List.mem_cons_of_mem b hx))
    rw [bytesHex_cons]
    unfold removeHyphens at ih' ⊢
    simp only [List.filter_cons, bne, h1, h2, Bool.not_false, if_true]
    simp only [bne] at ih'
    rw [ih']

theorem decode_bytesHex (l : List Nat) (h : ∀ b ∈ l, b < 256) :
    decodeHexPairs (bytesHex l) = some l := by
  induction l with
  | nil => rfl
  | cons b t ih =>
    have hb := h b (List.mem_cons_self b t)
    have h1 := (hexDigit_facts (b / 16) (div16_lt b hb)).1
    have h2 := (hexDigit_facts (b % 16) (Nat.mod_lt b (by omega))).1
    rw [bytesHex_cons]
    simp only [decodeHexPairs, h1, h2]
    rw [ih (fun x hx => h x (List.mem_cons_of_mem b hx))]
    have hdm : 16 * (b / 16) + b % 16 = b := by omega
    simp [hdm]

theorem hexRun_append (n : Nat) (X R : List Char) (hn : X.length = n)
    (hx : X.all isHexDigitLower = true) : hexRun n (X ++ R) = some R := by
  induction X generalizing n with
  | nil => subst hn ; rfl
  | cons c t ih =>
    subst hn
    simp only [List.all_cons, Bool.and_eq_true] at hx
    simp only [List.cons_append, List.length_cons, hexRun, hx.1, if_true]
    exact ih t.length rfl hx.2

/-! ## The canonical hex string of a 16-byte value -/

theorem take_drop_16 (l : List Nat) (h : l.length = 16) :
    l.take 4 ++ ((l.drop 4).take 2 ++ ((l.drop 6).take 2 ++
      ((l.drop 8).take 2 ++ (l.drop 10).take 6))) = l := by
  have h6 : List.take 6 l = List.take 4 l ++ List.take 2 (List.drop 4 l) := List.take_add l 4 2
  have h8 : List.take 8 l = List.take 6 l ++ List.take 2 (List.drop 6 l) := List.take_add l 6 2
  have h10 : List.take 10 l = List.take 8 l ++ List.take 2 (List.drop 8 l) := List.take_add l 8 2
  have h16 : List.take 16 l = List.take 10 l ++ List.take 6 (List.drop 10 l) := List.take_add l 10 6
  have hall : List.take 16 l = l := by rw [← h] ; exact List.take_length l
  rw [← List.append_assoc, ← h6, ← List.append_assoc, ← h8, ← List.append_assoc, ← h10, ← h16, hall]

theorem formatHex_data (l : List Nat) :
    (formatHex l).data = hexJoin (l.take 4) ((l.drop 4).take 2) ((l.drop 6).take 2)
      ((l.drop 8).take 2) ((l.drop 10).take 6) := rfl

theorem removeHyphens_hexJoin (a b c d e : List Nat)
    (ha : ∀ x ∈ a, x < 256) (hb : ∀ x ∈ b, x < 256) (hc : ∀ x ∈ c, x < 256)
    (hd : ∀ x ∈ d, x < 256) (he : ∀ x ∈ e, x < 256) :
    removeHyphens (hexJoin a b c d e) =
      bytesHex a ++ (bytesHex b ++ (bytesHex c ++ (bytesHex d ++ bytesHex e))) := by
  have na := bytesHex_no_hyphen a ha
  have nb := bytesHex_no_hyphen b hb
  have nc := bytesHex_no_hyphen c hc
  have nd := bytesHex_no_hyphen d hd
  have ne' := bytesHex_no_hyphen e he
  unfold removeHyphens at na nb nc nd ne' ⊢
  simp only [hexJoin, List.filter_append, List.filter_cons, na, nb, nc, nd, ne']
  simp

theorem expectHyphen_cons (cs : List Char) : expectHyphen (some ('-' :: cs)) = some cs := by
  simp [expectHyphen]

theorem isCanonical_hexJoin (a b c d e : List Nat)
    (la : a.length = 4) (lb : b.length = 2) (lc : c.length = 2) (ld : d.length = 2)
    (le' : e.length = 6)
    (ha : ∀ x ∈ a, x < 256) (hb : ∀ x ∈ b, x < 256) (hc : ∀ x ∈ c, x < 256)
    (hd : ∀ x ∈ d, x < 256) (he : ∀ x ∈ e, x < 256) :
    isCanonical (hexJoin a b c d e) = true := by
  have ra : hexRun 8 (bytesHex a ++ '-' :: (bytesHex b ++ '-' :: (bytesHex c ++ '-' ::
      (bytesHex d ++ '-' :: bytesHex e)))) = some ('-' :: (bytesHex b ++ '-' ::
      (bytesHex c ++ '-' :: (bytesHex d ++ '-' :: bytesHex e)))) :=
    hexRun_append 8 _ _ (by rw [bytesHex_length, la]) (bytesHex_all_hex a ha)
  have rb : hexRun 4 (bytesHex b ++ '-' :: (bytesHex c ++ '-' ::
      (bytesHex d ++ '-' :: bytesHex e))) = some ('-' :: (bytesHex c ++ '-' ::
      (bytesHex d ++ '-' :: bytesHex e))) :=
    hexRun_append 4 _ _ (by rw [bytesHex_length, lb]) (bytesHex_all_hex b hb)
  have rc : hexRun 4 (bytesHex c ++ '-' :: (bytesHex d ++ '-' :: bytesHex e)) =
      some ('-' :: (bytesHex d ++ '-' :: bytesHex e)) :=
    hexRun_append 4 _ _ (by rw [bytesHex_length, lc]) (bytesHex_all_hex c hc)
  have rd : hexRun 4 (bytesHex d ++ '-' :: bytesHex e) = some ('-' :: bytesHex e) :=
    hexRun_append 4 _ _ (by rw [bytesHex_length, ld]) (bytesHex_all_hex d hd)
  have re' : hexRun 12 (bytesHex e ++ ([] : List Char)) = some [] :=
    hexRun_append 12 _ _ (by rw [bytesHex_length, le']) (bytesHex_all_hex e he)
  rw [List.append_nil] at re'
  unfold isCanonical hexJoin
  simp only [List.append_assoc, List.cons_append]
  simp only [ra, rb, rc, rd, re', expectHyphen_cons, Option.some_bind, beq_self_eq_true]

theorem isCanonical_formatHex (l : List Nat) (hlen : l.length = 16)
    (hlt : ∀ x ∈ l, x < 256) : isCanonical (formatHex l).data = true := by
  rw [formatHex_data]
  refine isCanonical_hexJoin _ _ _ _ _ ?_ ?_ ?_ ?_ ?_ ?_ ?_ ?_ ?_ ?_
  · rw [List.length_take, hlen] ; rfl
  · rw [List.length_take, List.length_drop, hlen] ; rfl
  · rw [List.length_take, List.length_drop, hlen] ; rfl
  · rw [List.length_take, List.length_drop, hlen] ; rfl
  · rw [List.length_take, List.length_drop, hlen] ; rfl
  · exact fun x hx => hlt x (List.mem_of_mem_take hx)
  · exact fun x hx => hlt x (List.mem_of_mem_drop (List.mem_of_mem_take hx))
  · exact fun x hx => hlt x (List.mem_of_mem_drop (List.mem_of_mem_take hx))
  · exact fun x hx => hlt x (List.mem_of_mem_drop (List.mem_of_mem_take hx))
  · exact fun x hx => hlt x (List.mem_of_mem_drop (List.mem_of_mem_take hx))

theorem decode_formatHex (l : List Nat) (hlen : l.length = 16)
    (hlt : ∀ x ∈ l, x < 256) :
    decodeHexPairs (removeHyphens (formatHex l).data) = some l := by
  rw [formatHex_data]
  rw [removeHyphens_hexJoin _ _ _ _ _
    (fun x hx => hlt x (List.mem_of_mem_take hx))
    (fun x hx => hlt x (List.mem_of_mem_drop (List.mem_of_mem_take hx)))
    (fun x hx => hlt x (List.mem_of_mem_drop (List.mem_of_mem_take hx)))
    (fun x hx => hlt x (List.mem_of_mem_drop (List.mem_of_mem_take hx)))
    (fun x hx => hlt x (List.mem_of_mem_drop (List.mem_of_mem_take hx)))]
  rw [← bytesHex_append, ← bytesHex_append, ← bytesHex_append, ← bytesHex_append]
  rw [take_drop_16 l hlen]
  exact decode_bytesHex l hlt

/-! ## Facts about the registry (Go map model) -/

theorem mapLookup_mapInsert (m : List (String × Nat)) (k : String) (v : Nat) (q : String) :
    mapLookup (mapInsert m k v) q = if k = q then some v else mapLookup m q := by
  induction m with
  | nil =>
    by_cases h : k = q <;> simp [mapInsert, mapLookup, h]
  | cons p rest ih =>
    by_cases hpk : p.1 = k
    · by_cases hkq : k = q <;> simp [mapInsert, mapLookup, hpk, hkq]
    · by_cases hpq : p.1 = q
      · have hkq : ¬ k = q := fun h => hpk (h ▸ hpq)
        have hqk : ¬ q = k := fun h => hkq h.symm
        simp [mapInsert, mapLookup, hpk, hpq, hkq, hqk]
      · simp [mapInsert, mapLookup, hpk, hpq, ih]

theorem mem_mapInsert (m : List (String × Nat)) (k : String) (v : Nat) (p : String × Nat)
    (hp : p ∈ mapInsert m k v) : p = (k, v) ∨ p ∈ m := by
  induction m with
  | nil => simp [mapInsert] at hp ; exact Or.inl hp
  | cons q rest ih =>
    by_cases hq : q.1 = k
    · simp only [mapInsert, hq, if_true] at hp
      rcases List.mem_cons.mp hp with h | h
      · exact Or.inl h
      · exact Or.inr (List.mem_cons_of_mem q h)
    · simp only [mapInsert, hq, if_false] at hp
      rcases List.mem_cons.mp hp with h | h
      · exact Or.inr (h ▸ List.mem_cons_self q rest)
      · rcases ih h with h' | h'
        · exact Or.inl h'
        · exact Or.inr (List.mem_cons_of_mem q h')

theorem mem_foldl_mapInsert (P : List (String × Nat)) (m0 : List (String × Nat))
    (p : String × Nat) (hp : p ∈ P.foldl (fun m q => mapInsert m q.1 q.2) m0) :
    p ∈ m0 ∨ p ∈ P := by
  induction P generalizing m0 with
  | nil => exact Or.inl hp
  | cons q rest ih =>
    simp only [List.foldl_cons] at hp
    rcases ih (mapInsert m0 q.1 q.2) hp with h | h
    · rcases mem_mapInsert m0 q.1 q.2 p h with h' | h'
      · exact Or.inr (h' ▸ List.mem_cons_self q rest)
      · exact Or.inl h'
    · exact Or.inr (List.mem_cons_of_mem q h)

theorem mem_buildScopes (A : List String) (p : String × Nat)
    (hp : p ∈ buildScopes A) : p ∈ A.zip scopes := by
  rcases mem_foldl_mapInsert (A.zip scopes) [] p hp with h | h
  · cases h
  · exact h

theorem mem_of_mapLookup (m : List (String × Nat)) (k : String) (v : Nat)
    (h : mapLookup m k = some v) : (k, v) ∈ m := by
  induction m with
  | nil => cases h
  | cons p rest ih =>
    by_cases hpk : p.1 = k
    · simp only [mapLookup, hpk, if_true, Option.some.injEq] at h
      have hp2 : p = (k, v) := by
        obtain ⟨p1, p2⟩ := p
        simp only at hpk h
        rw [hpk, h]
      rw [← hp2]
      exact List.mem_cons_self p rest
    · simp only [mapLookup, hpk, if_false] at h
      exact List.mem_cons_of_mem p (ih h)

theorem scopes_nodup : scopes.Nodup := by decide

theorem buildScopes_snd_nodup (A : List String) (hA : A.length = 64) :
    ((A.zip scopes).map Prod.snd).Nodup := by
  have hls : scopes.length = 64 := by decide
  rw [List.map_snd_zip A scopes (by rw [hA, hls])]
  exact scopes_nodup

/-- The scope-resolution loop of `readScope` finds exactly the name bound to
a tag: the registry never binds two names to the same tag, so the first
match of the (order-unspecified) map iteration is the unique one. -/
theorem find?_tag (m P : List (String × Nat)) (hsub : ∀ p ∈ m, p ∈ P)
    (hnd : (P.map Prod.snd).Nodup) (s : String) (t : Nat) (hm : (s, t) ∈ m) :
    m.find? (fun q => t == q.2) = some (s, t) := by
  cases hfind : m.find? (fun q => t == q.2) with
  | none =>
    exfalso
    have := (List.find?_eq_none.mp hfind) (s, t) hm
    simp at this
  | some p =>
    have hp := List.find?_some hfind
    have hpm : p ∈ m := List.mem_of_find?_eq_some hfind
    have hpe : p.2 = t := by
      have := beq_iff_eq.mp hp
      omega
    have : p = (s, t) :=
      List.inj_on_of_nodup_map hnd (hsub p hpm) (hsub (s, t) hm) (by simp [hpe])
    rw [this]

/-- Every tag in the `scopes` table survives the 2-bit jitter: with
`r < 4`, `(t | r) & 0xFC = t`, and the result is still a byte. -/
theorem scopes_tag_facts (t : Nat) (ht : t ∈ scopes) (r : Nat) (hr : r < 4) :
    (t ||| r) &&& 0xFC = t ∧ t ||| r < 256 := by
  have hb : scopes.all
      (fun t => (List.range 4).all (fun r => ((t ||| r) &&& 0xFC == t) && (t ||| r < 256 : Bool))) = true := by
    decide
  have h1 := List.all_eq_true.mp hb t ht
  have h2 := List.all_eq_true.mp h1 r (List.mem_range.mpr hr)
  simp only [Bool.and_eq_true, beq_iff_eq, decide_eq_true_eq] at h2
  exact h2

/-! ## Behaviour of `readScope`, `Read` and `New` on well-formed inputs -/

theorem copyBytes_full (dst src : List Nat) (h : dst.length = src.length) :
    copyBytes dst src = src := by
  unfold copyBytes
  rw [h, Nat.min_self, List.take_length, List.drop_eq_nil_of_le (le_of_eq h)]
  exact List.append_nil src

theorem New_ok (st : Registry) (s : String) (t : Nat) (rand : List Nat) (r2 : Nat)
    (hs : regLookup st s = some t) :
    New st s rand r2 = Except.ok
      { scope := s, hex := formatHex ((t ||| r2) :: rand.drop 1),
        bin := (t ||| r2) :: rand.drop 1 } := by
  unfold New
  rw [hs]

theorem readScope_found (A : List String) (hA : A.length = 64) (u : UUID) (bs : List Nat)
    (s : String) (t : Nat)
    (hdec : decodeHexPairs (removeHyphens u.hex.data) = some bs)
    (hm : (s, t) ∈ buildScopes A)
    (hmask : (copyBytes u.bin bs).headD 0 &&& 0xFC = t) :
    readScope (some (buildScopes A)) u =
      (if s = "" then ({ scope := s, hex := u.hex, bin := copyBytes u.bin bs }, some ErrorBadScope)
       else ({ scope := s, hex := u.hex, bin := copyBytes u.bin bs }, none)) := by
  obtain ⟨us, uh, ub⟩ := u
  unfold readScope
  rw [hdec]
  dsimp only at hmask ⊢
  simp only [hmask]
  rw [find?_tag (buildScopes A) (A.zip scopes) (mem_buildScopes A)
    (buildScopes_snd_nodup A hA) s t hm]

theorem Read_found (A : List String) (hA : A.length = 64) (input : String) (bs : List Nat)
    (s : String) (t : Nat)
    (hc : isCanonical input.data = true)
    (hdec : decodeHexPairs (removeHyphens input.data) = some bs)
    (hm : (s, t) ∈ buildScopes A)
    (hmask : (copyBytes (List.replicate 16 0) bs).headD 0 &&& 0xFC = t) :
    Read (some (buildScopes A)) input =
      (if s = "" then Except.error ErrorBadScope
       else Except.ok
         { scope := s, hex := input,
           bin := copyBytes (List.replicate 16 0) bs }) := by
  unfold Read
  rw [hc, if_pos rfl]
  rw [readScope_found A hA ⟨"", input, List.replicate 16 0⟩ bs s t hdec hm hmask]
  by_cases hs : s = ""
  · rw [if_pos hs, if_pos hs]
  · rw [if_neg hs, if_neg hs]

/-! ## Last-binding-wins semantics of the configuration fold -/

theorem mapLookup_foldl_notmem (Q : List (String × Nat)) (m0 : List (String × Nat))
    (k : String) (hk : ∀ q ∈ Q, q.1 ≠ k) :
    mapLookup (Q.foldl (fun m p => mapInsert m p.1 p.2) m0) k = mapLookup m0 k := by
  induction Q generalizing m0 with
  | nil => rfl
  | cons q rest ih =>
    simp only [List.foldl_cons]
    rw [ih (mapInsert m0 q.1 q.2) (fun p hp => hk p (List.mem_cons_of_mem q hp))]
    rw [mapLookup_mapInsert]
    rw [if_neg (hk q (List.mem_cons_self q rest))]

/-- A name that occurs for the last time at index `i` of the configuration
array ends up bound to `scopes[i]`: later map writes for the same key would
have overwritten it, so the last write wins. -/
theorem buildScopes_lookup_last (A : List String) (i : Nat)
    (hA : A.length = 64) (hi : i < 64)
    (hlast : ∀ j, j < 64 → i < j → A.getD j "" ≠ A.getD i "") :
    mapLookup (buildScopes A) (A.getD i "") = some (scopes.getD i 0) := by
  have hls : scopes.length = 64 := by decide
  have hlP : (A.zip scopes).length = 64 := by
    rw [List.length_zip, hA, hls]
    omega
  have hiP : i < (A.zip scopes).length := by omega
  have hiA : i < A.length := by omega
  have hiS : i < scopes.length := by omega
  have hget : (A.zip scopes)[i] = (A.getD i "", scopes.getD i 0) := by
    rw [List.getElem_zip, List.getD_eq_getElem A "" hiA, List.getD_eq_getElem scopes 0 hiS]
  have hsplit : A.zip scopes =
      ((A.zip scopes).take i ++ [(A.getD i "", scopes.getD i 0)]) ++ (A.zip scopes).drop (i + 1) := by
    rw [List.append_assoc, List.singleton_append, ← hget, ← List.drop_eq_getElem_cons hiP,
      List.take_append_drop]
  unfold buildScopes
  rw [hsplit, List.foldl_append, List.foldl_append]
  rw [mapLookup_foldl_notmem _ _ _ ?_]
  · simp only [List.foldl_cons, List.foldl_nil]
    rw [mapLookup_mapInsert]
    rw [if_pos rfl]
  · intro q hq
    rcases List.mem_iff_getElem.mp hq with ⟨j, hj, hjq⟩
    have hj' : i + 1 + j < (A.zip scopes).length := by
      have := hj
      rw [List.length_drop] at this
      omega
    have : (A.zip scopes)[i + 1 + j] = q := by
      rw [← List.getElem_drop (A.zip scopes)]
      exact hjq
    have hq1 : q.1 = A.getD (i + 1 + j) "" := by
      rw [← this, List.getElem_zip]
      rw [List.getD_eq_getElem A "" (by omega)]
    rw [hq1]
    exact hlast (i + 1 + j) (by omega) (by omega)

/-! ## Claim theorems -/

/-- C1 (amended): for every scope `s` registered in a configured registry
with `s ≠ ""`, parsing the canonical text of a freshly generated identifier
succeeds and reproduces it structurally: `Read (New s).hex` returns an
identifier whose scope is `s`, whose binary is the original 16 bytes and
whose hex is the original canonical text.  (For the empty-string name,
which `SetScopes` registers when the 64-slot array is partially populated,
`New` succeeds but `Read` rejects the output; see the counterexample.) -/
theorem uuid_c1_roundtrip (A : List String) (s : String) (t : Nat)
    (rand : List Nat) (r2 : Nat)
    (hA : A.length = 64) (hs : mapLookup (buildScopes A) s = some t)
    (hsne : s ≠ "") (hrand : rand.length = 16)
    (hall : ∀ b ∈ rand, b < 256) (hr2 : r2 < 4) :
    ∃ u : UUID, New (some (buildScopes A)) s rand r2 = Except.ok u ∧
      Read (some (buildScopes A)) u.hex =
        Except.ok { scope := s, hex := u.hex, bin := u.bin } := by
  have hmem : (s, t) ∈ buildScopes A := mem_of_mapLookup _ _ _ hs
  have htag : t ∈ scopes := (List.of_mem_zip (mem_buildScopes A _ hmem)).2
  obtain ⟨hmask0, hlt0⟩ := scopes_tag_facts t htag r2 hr2
  set bin : List Nat := (t ||| r2) :: rand.drop 1 with hbin
  have hlen : bin.length = 16 := by
    rw [hbin]
    simp [hrand]
  have hblt : ∀ b ∈ bin, b < 256 := by
    intro b hb
    rw [hbin] at hb
    rcases List.mem_cons.mp hb with h | h
    · rw [h] ; exact hlt0
    · exact hall b (List.mem_of_mem_drop h)
  have hcopy : copyBytes (List.replicate 16 0) bin = bin :=
    copyBytes_full _ _ (by simp [hlen])
  have hmask : (copyBytes (List.replicate 16 0) bin).headD 0 &&& 0xFC = t := by
    rw [hcopy, hbin]
    exact hmask0
  have hnew : New (some (buildScopes A)) s rand r2 = Except.ok ⟨s, formatHex bin, bin⟩ :=
    New_ok _ s t rand r2 hs
  refine ⟨⟨s, formatHex bin, bin⟩, hnew, ?_⟩
  have hread := Read_found A hA (formatHex bin) bin s t
    (isCanonical_formatHex bin hlen hblt) (decode_formatHex bin hlen hblt) hmem hmask
  rw [if_neg hsne] at hread
  rw [hread, hcopy]

/-- C1 witness: the amended round trip at the test configuration, scope
`"five"`, all-zero entropy. -/
theorem uuid_c1_roundtrip_witness :
    ∃ u : UUID, New (some (buildScopes A0)) "five" (List.replicate 16 0) 0 = Except.ok u ∧
      Read (some (buildScopes A0)) u.hex =
        Except.ok { scope := "five", hex := u.hex, bin := u.bin } :=
  uuid_c1_roundtrip A0 "five" 0x10 (List.replicate 16 0) 0 (by decide) (by decide)
    (by decide) (by decide) (by decide) (by decide)

/-- C1 counterexample: the claim quantifies over every registered scope, but
the empty-string name is registered by a partially-populated configuration
array (`New ""` succeeds and uses tag `0xFC`), while `Read` of the resulting
canonical text fails with `ErrorBadScope`, so the round trip does not hold
for every registered scope. -/
theorem uuid_c1_counterexample :
    mapLookup (buildScopes A0) "" = some 0xFC ∧
    New (some (buildScopes A0)) "" (List.replicate 16 0) 0 =
      Except.ok { scope := "", hex := "fc000000-0000-0000-0000-000000000000",
                  bin := 0xFC :: List.replicate 15 0 } ∧
    Read (some (buildScopes A0)) "fc000000-0000-0000-0000-000000000000" =
      Except.error ErrorBadScope := by
  refine ⟨by decide, by decide, by decide⟩

/-- C2: every identifier produced by `New s` for a registered scope `s`
satisfies `(bin[0] & 0xFC) = t` where `t` is the tag the registry bound to
`s`, and `t` is one of the 64 table constants `0x00, 0x04, …, 0xFC`. -/
theorem uuid_c2_tag_invariant (A : List String) (s : String) (t : Nat)
    (rand : List Nat) (r2 : Nat)
    (hA : A.length = 64) (hs : mapLookup (buildScopes A) s = some t) (hr2 : r2 < 4) :
    ∃ u : UUID, New (some (buildScopes A)) s rand r2 = Except.ok u ∧
      u.bin.headD 0 &&& 0xFC = t ∧ t ∈ scopes := by
  have hmem : (s, t) ∈ buildScopes A := mem_of_mapLookup _ _ _ hs
  have htag : t ∈ scopes := (List.of_mem_zip (mem_buildScopes A _ hmem)).2
  obtain ⟨hmask0, _⟩ := scopes_tag_facts t htag r2 hr2
  exact ⟨_, New_ok _ s t rand r2 hs, hmask0, htag⟩

/-- C2 witness: `"five"` sits at configuration index 4 and is bound to
`0x10`; a generated identifier carries that tag even with maximal jitter. -/
theorem uuid_c2_tag_invariant_witness :
    ∃ u : UUID, New (some (buildScopes A0)) "five" (List.replicate 16 0) 3 = Except.ok u ∧
      u.bin.headD 0 &&& 0xFC = 0x10 ∧ (0x10 : Nat) ∈ scopes :=
  uuid_c2_tag_invariant A0 "five" 0x10 (List.replicate 16 0) 3 (by decide) (by decide)
    (by decide)

/-- C3 counterexample: on canonical input with an unconfigured registry,
`Read` reports `ErrorBadScope`, not `ErrorMissingScope` as claimed —
uuid.go line 235 replaces every `readScope` failure by `ErrorBadScope`. -/
theorem uuid_c3_counterexample :
    Read none "00000000-0000-0000-0000-000000000000" = Except.error ErrorBadScope ∧
    ErrorBadScope ≠ ErrorMissingScope := by
  refine ⟨by decide, by decide⟩

/-- C3 (amended): when the input passes the grammar check, `Read` fails with
`ErrorBadScope` both when the registry has never been configured and when
the masked tag matches no registered tag; only the internal `readScope`
distinguishes the unconfigured case with `ErrorMissingScope`. -/
theorem uuid_c3_badscope_amended (input : String) (bs : List Nat)
    (m : List (String × Nat))
    (hc : isCanonical input.data = true)
    (hdec : decodeHexPairs (removeHyphens input.data) = some bs)
    (hnm : ∀ p ∈ m, ¬ (copyBytes (List.replicate 16 0) bs).headD 0 &&& 0xFC = p.2) :
    Read none input = Except.error ErrorBadScope ∧
    (readScope none { scope := "", hex := input, bin := List.replicate 16 0 }).2 =
      some ErrorMissingScope ∧
    Read (some m) input = Except.error ErrorBadScope := by
  have hmiss : readScope none { scope := "", hex := input, bin := List.replicate 16 0 } =
      ({ scope := "", hex := input, bin := copyBytes (List.replicate 16 0) bs },
        some ErrorMissingScope) := by
    unfold readScope
    rw [hdec]
  have hfind : m.find? (fun q => (copyBytes (List.replicate 16 0) bs).headD 0 &&& 0xFC == q.2) =
      none := by
    rw [List.find?_eq_none]
    intro p hp
    simpa using hnm p hp
  have hbad : readScope (some m) { scope := "", hex := input, bin := List.replicate 16 0 } =
      ({ scope := "", hex := input, bin := copyBytes (List.replicate 16 0) bs },
        some ErrorBadScope) := by
    unfold readScope
    rw [hdec]
    dsimp only
    rw [hfind]
    dsimp only
    rw [if_pos rfl]
  refine ⟨?_, ?_, ?_⟩
  · unfold Read
    rw [hc, if_pos rfl, hmiss]
  · rw [hmiss]
  · unfold Read
    rw [hc, if_pos rfl, hbad]

/-- C3 witness: the all-zero canonical string against an unconfigured
registry and against a registry that knows only `("one", 0x04)`. -/
theorem uuid_c3_badscope_amended_witness :
    Read none "00000000-0000-0000-0000-000000000000" = Except.error ErrorBadScope ∧
    (readScope none
      { scope := "", hex := "00000000-0000-0000-0000-000000000000",
        bin := List.replicate 16 0 }).2 = some ErrorMissingScope ∧
    Read (some [("one", 0x04)]) "00000000-0000-0000-0000-000000000000" =
      Except.error ErrorBadScope :=
  uuid_c3_badscope_amended "00000000-0000-0000-0000-000000000000"
    (List.replicate 16 0) [("one", 0x04)] (by decide) (by decide) (by decide)

/-- C4: the first `SetScopes` call (on the nil registry) with 64 distinct
names succeeds and installs the bindings; every later call, with any array,
fails with `ErrorScopesAlreadySet` and returns the state unchanged. -/
theorem uuid_c4_set_once (A B : List String) (m : List (String × Nat))
    (hA : A.length = 64) (hnd : A.Nodup) :
    SetScopes none A = (some (buildScopes A), none) ∧
    SetScopes (some m) B = (some m, some ErrorScopesAlreadySet) :=
  ⟨rfl, rfl⟩

/-- C4 witness: configuring with 64 distinct one-character names, then
trying to reconfigure with the test array. -/
theorem uuid_c4_set_once_witness :
    SetScopes none names64 = (some (buildScopes names64), none) ∧
    SetScopes (some (buildScopes names64)) A0 =
      (some (buildScopes names64), some ErrorScopesAlreadySet) :=
  uuid_c4_set_once names64 A0 (buildScopes names64) (by decide) (by decide)

/-- C5: every input string rejected by the canonical grammar
`^[0-9a-f]{8}-[0-9a-f]{4}-[0-9a-f]{4}-[0-9a-f]{4}-[0-9a-f]{12}$` makes
`Read` fail with `ErrorBadString`, whatever the registry state. -/
theorem uuid_c5_grammar_rejection (st : Registry) (input : String)
    (h : isCanonical input.data = false) :
    Read st input = Except.error ErrorBadString := by
  unfold Read
  rw [h]
  rfl

/-- C5 witness: a truncated string, an uppercase-hex string, and a string
with surrounding whitespace are all rejected with `ErrorBadString`. -/
theorem uuid_c5_grammar_rejection_witness :
    Read none "1" = Except.error ErrorBadString ∧
    Read none "FF8CB1D0-84F3-9D8D-76CC-682D1CA34DAE" = Except.error ErrorBadString ∧
    Read none " 10000000-0000-0000-0000-000000000000" = Except.error ErrorBadString :=
  ⟨uuid_c5_grammar_rejection none "1" (by decide),
   uuid_c5_grammar_rejection none "FF8CB1D0-84F3-9D8D-76CC-682D1CA34DAE" (by decide),
   uuid_c5_grammar_rejection none " 10000000-0000-0000-0000-000000000000" (by decide)⟩

/-- C6 (code bug): `ScopeMatches` on a nil receiver dereferences
`uuid.scope` inside the loop, so as soon as the candidate list is nonempty
it panics (`none` in the model) instead of returning `false` as the claim —
and the function's own doc comment — promise; only the empty candidate list
escapes the dereference. -/
theorem uuid_c6_nil_scope_matches_panics :
    ScopeMatches none ["ten"] = none ∧ ScopeMatches none [] = some false :=
  ⟨rfl, rfl⟩

/-- C7: every accessor on a nil `UUID` pointer returns its zero-equivalent
value: `Scope` and `Hex` the empty string, `Bin` the all-zero 16-byte
array. -/
theorem uuid_c7_zero_value_accessors :
    Scope none = "" ∧ Hex none = "" ∧ Bin none = List.replicate 16 0 :=
  ⟨rfl, rfl, rfl⟩

/-- C9: `Scan` slices `src[0:4] … src[10:16]` unconditionally, so every
`[]byte` argument shorter than 16 bytes makes it panic with a slice bound
error (`none` in the model), and every argument of at least 16 bytes is
processed without fault. -/
theorem uuid_c9_scan_totality (st : Registry) (u : UUID) (src : List Nat) :
    (src.length < 16 → Scan st u src = none) ∧
    (16 ≤ src.length → (Scan st u src).isSome = true) := by
  constructor
  · intro h
    have h5 : ¬ (10 ≤ 16 ∧ 16 ≤ src.length) := by omega
    simp only [Scan, goSlice]
    simp [h5]
    omega
  · intro h
    have c1 : 0 ≤ 4 ∧ 4 ≤ src.length := by omega
    have c2 : 4 ≤ 6 ∧ 6 ≤ src.length := by omega
    have c3 : 6 ≤ 8 ∧ 8 ≤ src.length := by omega
    have c4 : 8 ≤ 10 ∧ 10 ≤ src.length := by omega
    have c5 : 10 ≤ 16 ∧ 16 ≤ src.length := by omega
    simp only [Scan, goSlice]
    simp [c1, c2, c3, c4, c5]

/-- C9 witness: the empty slice panics, a 16-byte slice is processed. -/
theorem uuid_c9_scan_totality_witness :
    Scan none u0 [] = none ∧ (Scan none u0 (List.replicate 16 0)).isSome = true :=
  ⟨(uuid_c9_scan_totality none u0 []).1 (by decide),
   (uuid_c9_scan_totality none u0 (List.replicate 16 0)).2 (by decide)⟩

/-- C10: a name occurring more than once in the 64-slot configuration array
is bound to the tag of the last index at which it appears; in particular,
when the array is partially populated so that slot 63 holds `""`, the empty
name is registered with tag `0xFC` and `New ""` succeeds with that tag —
yet `Read` of any canonical text whose masked first byte is `0xFC` fails,
because a resolved scope equal to `""` is treated as unresolved
(`ErrorBadScope`). -/
theorem uuid_c10_last_binding_empty_scope (A : List String) (i : Nat)
    (rand : List Nat) (r2 : Nat) (input : String) (bs : List Nat)
    (hA : A.length = 64) (hi : i < 64)
    (hlast : ∀ j, j < 64 → i < j → A.getD j "" ≠ A.getD i "")
    (h63 : A.getD 63 "" = "")
    (hr2 : r2 < 4)
    (hc : isCanonical input.data = true)
    (hdec : decodeHexPairs (removeHyphens input.data) = some bs)
    (hmask : (copyBytes (List.replicate 16 0) bs).headD 0 &&& 0xFC = 0xFC) :
    mapLookup (buildScopes A) (A.getD i "") = some (scopes.getD i 0) ∧
    (∃ u : UUID, New (some (buildScopes A)) "" rand r2 = Except.ok u ∧
      u.scope = "" ∧ u.bin.headD 0 &&& 0xFC = 0xFC) ∧
    Read (some (buildScopes A)) input = Except.error ErrorBadScope := by
  have hempty : mapLookup (buildScopes A) "" = some 0xFC := by
    have h252 : scopes.getD 63 0 = 0xFC := by decide
    have := buildScopes_lookup_last A 63 hA (by omega)
      (fun j hj hgt => absurd (lt_trans hgt hj) (by omega))
    rw [h63, h252] at this
    exact this
  have hmem : ((""  : String), (0xFC : Nat)) ∈ buildScopes A := mem_of_mapLookup _ _ _ hempty
  obtain ⟨hmk, _⟩ := scopes_tag_facts 0xFC (by decide) r2 hr2
  refine ⟨buildScopes_lookup_last A i hA hi hlast, ?_, ?_⟩
  · exact ⟨_, New_ok _ "" 0xFC rand r2 hempty, rfl, hmk⟩
  · have hread := Read_found A hA input bs "" 0xFC hc hdec hmem hmask
    rw [if_pos rfl] at hread
    exact hread

/-- C10 witness: the test array (eight names, 56 empty slots) at the last
index 63, with the all-zero-entropy `New ""` output as the parsed text. -/
theorem uuid_c10_last_binding_empty_scope_witness :
    mapLookup (buildScopes A0) (A0.getD 63 "") = some (scopes.getD 63 0) ∧
    (∃ u : UUID, New (some (buildScopes A0)) "" (List.replicate 16 0) 0 = Except.ok u ∧
      u.scope = "" ∧ u.bin.headD 0 &&& 0xFC = 0xFC) ∧
    Read (some (buildScopes A0)) "fc000000-0000-0000-0000-000000000000" =
      Except.error ErrorBadScope :=
  uuid_c10_last_binding_empty_scope A0 63 (List.replicate 16 0) 0
    "fc000000-0000-0000-0000-000000000000" (0xFC :: List.replicate 15 0)
    (by decide) (by decide) (by decide) (by decide) (by decide) (by decide)
    (by decide) (by decide)
